import Mathlib

/-!
Verification of the youtube-transcriber batch crawl engine.

Shallow embedding of the quota tracker, rate limiter, retry manager,
circuit breaker, processing queue, channel progress model, channel
worker control flow and orchestrator resume logic, translated from the
Python sources under src/.  Mutable objects become explicit state
passing; asynchronous calls become pure functions of their outcomes;
wall-clock timestamps become explicit rational or integer arguments.
-/

namespace YTBatch

/-! ## Definitions

### QuotaTracker — src/utils/quota_tracker.py -/

/-- The QUOTA_COSTS class table of QuotaTracker. -/
def QUOTA_COSTS : List (String × Nat) :=
  [("search", 100), ("channels", 1), ("videos", 1), ("video_list", 1)]

/-- QUOTA_COSTS.get(operation, 1). -/
def quotaCostLookup (operation : String) : Nat :=
  match QUOTA_COSTS.lookup operation with
  | some c => c
  | none => 1

/-- Python expression 'cost or self.QUOTA_COSTS.get(operation, 1)':
a supplied cost of 0 is falsy, so it falls through to the table. -/
def operationCost (operation : String) (cost : Option Nat) : Nat :=
  match cost with
  | some c => if c = 0 then quotaCostLookup operation else c
  | none => quotaCostLookup operation

/-- Mutable state of QuotaTracker (reset_time is replaced by the
resetDue flag passed to each call, standing for utcnow() >= reset_time). -/
structure QuotaTracker where
  daily_limit : Nat
  used_quota : Nat
  operation_history : List (String × Nat)
deriving Repr, DecidableEq

/-- QuotaTracker.__init__. -/
def QuotaTracker.init (daily_limit : Nat) : QuotaTracker :=
  ⟨daily_limit, 0, []⟩

/-- operation_history[operation] = operation_history.get(operation, 0) + 1. -/
def bumpHistory : List (String × Nat) → String → List (String × Nat)
  | [], op => [(op, 1)]
  | (k, v) :: rest, op =>
    if k = op then (k, v + 1) :: rest else (k, v) :: bumpHistory rest op

/-- QuotaTracker._reset_quota. -/
def QuotaTracker.resetQuota (q : QuotaTracker) : QuotaTracker :=
  { q with used_quota := 0, operation_history := [] }

/-- QuotaTracker.consume_quota.  resetDue models the
'datetime.utcnow() >= self.reset_time' check at the top of the call. -/
def QuotaTracker.consume_quota (q : QuotaTracker) (operation : String)
    (cost : Option Nat) (resetDue : Bool) : Bool × QuotaTracker :=
  let q1 := if resetDue then q.resetQuota else q
  let c := operationCost operation cost
  if q1.used_quota + c > q1.daily_limit then
    (false, q1)
  else
    (true, { q1 with
              used_quota := q1.used_quota + c,
              operation_history := bumpHistory q1.operation_history operation })

/-- One consume_quota call: operation, optional custom cost, and whether
the daily reset boundary was crossed before the call. -/
structure QuotaCall where
  op : String
  cost : Option Nat
  resetDue : Bool
deriving Repr, DecidableEq

/-- A sequence of consume_quota calls applied from a starting state. -/
def QuotaTracker.runCalls (q : QuotaTracker) (calls : List QuotaCall) : QuotaTracker :=
  calls.foldl (fun st c => (st.consume_quota c.op c.cost c.resetDue).2) q

/-! ### ProcessingQueue — src/models/batch.py -/

/-- ProcessingQueue model fields. -/
structure ProcessingQueue where
  channel_id : String
  video_ids : List String
  current_index : Nat
  batch_size : Nat
deriving Repr, DecidableEq

/-- ProcessingQueue.get_next_batch: the slice
video_ids[current_index : min(current_index + batch_size, len)] plus the
cursor advance. -/
def ProcessingQueue.get_next_batch (q : ProcessingQueue) : List String × ProcessingQueue :=
  let start := q.current_index
  let stop := min (start + q.batch_size) q.video_ids.length
  let batch := (q.video_ids.drop start).take (stop - start)
  (batch, { q with current_index := stop })

/-- ProcessingQueue.is_complete: current_index >= len(video_ids). -/
def ProcessingQueue.is_complete (q : ProcessingQueue) : Bool :=
  decide (q.video_ids.length ≤ q.current_index)

/-- k successive get_next_batch calls, collecting the returned batches. -/
def ProcessingQueue.runBatches (q : ProcessingQueue) : Nat → List (List String) × ProcessingQueue
  | 0 => ([], q)
  | k + 1 =>
    let step := q.get_next_batch
    let rest := step.2.runBatches k
    (step.1 :: rest.1, rest.2)

/-! ### ChannelProgress — src/models/batch.py -/

/-- The Literal status values of ChannelProgress (the Python literal
"partial" is spelled partial_ here). -/
inductive ChannelStatus where
  | pending
  | processing
  | completed
  | failed
  | partial_
deriving Repr, DecidableEq

/-- ChannelProgress model fields relevant to the batch engine. -/
structure ChannelProgress where
  channel_id : String
  status : ChannelStatus
  processed_videos : Nat
  successful_videos : Nat
  failed_videos : Nat
  total_videos : Nat
  last_video_id : Option String
  error_message : Option String
  error_count : Nat
deriving Repr, DecidableEq

/-- ChannelProgress(channel_id=cid, status="pending") with pydantic
defaults for every other field. -/
def ChannelProgress.initFor (cid : String) : ChannelProgress :=
  ⟨cid, ChannelStatus.pending, 0, 0, 0, 0, none, none, 0⟩

/-- ChannelProgress.update_progress. -/
def ChannelProgress.update_progress (p : ChannelProgress) (video_success : Bool)
    (video_id : String) : ChannelProgress :=
  { p with
    processed_videos := p.processed_videos + 1,
    successful_videos := if video_success then p.successful_videos + 1 else p.successful_videos,
    failed_videos := if video_success then p.failed_videos else p.failed_videos + 1,
    last_video_id := some video_id }

/-- A sequence of update_progress calls, one (video_id, success) pair each. -/
def ChannelProgress.runUpdates (p : ChannelProgress)
    (updates : List (String × Bool)) : ChannelProgress :=
  updates.foldl (fun st u => st.update_progress u.2 u.1) p

/-! ### Channel worker control flow —
MultiChannelProcessor._process_single_channel,
src/services/multi_channel_processor.py -/

/-- Failed items in a (video_id, fetch succeeded) list. -/
def countFailed (videos : List (String × Bool)) : Nat :=
  (videos.filter (fun v => !v.2)).length

/-- Successful items in a (video_id, fetch succeeded) list. -/
def countSucceeded (videos : List (String × Bool)) : Nat :=
  (videos.filter (fun v => v.2)).length

/-- MultiChannelProcessor._process_single_channel, as a function of the
collaborator outcomes: metadata resolution (get_channel_by_input, with
the 'Channel not found' ValueError folded into the error case), the
filtered video list resolution (get_channel_videos + filter_videos),
and each item's per-video outcome.  Per-item exceptions are absorbed by
asyncio.gather(return_exceptions=True) after update_progress(False) ran,
so an item is just its success flag. -/
def processSingleChannel (cid : String) (metadata : Except String Unit)
    (videosResult : Except String (List (String × Bool))) : ChannelProgress :=
  let p0 := { ChannelProgress.initFor cid with status := ChannelStatus.processing }
  match metadata with
  | Except.error e => { p0 with status := ChannelStatus.failed, error_message := some e }
  | Except.ok _ =>
    match videosResult with
    | Except.error e => { p0 with status := ChannelStatus.failed, error_message := some e }
    | Except.ok videos =>
      let p1 := { p0 with total_videos := videos.length }
      if videos.isEmpty then
        { p1 with status := ChannelStatus.completed }
      else
        let p2 := p1.runUpdates videos
        if p2.failed_videos = 0 then { p2 with status := ChannelStatus.completed }
        else { p2 with status := ChannelStatus.partial_ }

/-! ### CircuitBreaker — src/utils/error_handlers.py -/

/-- The _state strings of CircuitBreaker ("open" is spelled open_). -/
inductive BreakerState where
  | closed
  | open_
  | half_open
deriving Repr, DecidableEq

/-- CircuitBreaker mutable state; timestamps are integer seconds. -/
structure CircuitBreaker where
  service_name : String
  failure_threshold : Nat
  recovery_timeout : Int
  failure_count : Nat
  last_failure_time : Option Int
  state_var : BreakerState
deriving Repr, DecidableEq

/-- CircuitBreaker.__init__. -/
def CircuitBreaker.init (name : String) (threshold : Nat) (timeout : Int) : CircuitBreaker :=
  ⟨name, threshold, timeout, 0, none, BreakerState.closed⟩

/-- The state property: lazily moves open to half_open when strictly
more than recovery_timeout has passed since the last failure. -/
def CircuitBreaker.readState (cb : CircuitBreaker) (now : Int) : BreakerState × CircuitBreaker :=
  if cb.state_var = BreakerState.open_ then
    match cb.last_failure_time with
    | some t =>
      if now - t > cb.recovery_timeout then
        (BreakerState.half_open, { cb with state_var := BreakerState.half_open })
      else (BreakerState.open_, cb)
    | none => (BreakerState.open_, cb)
  else (cb.state_var, cb)

/-- CircuitBreaker._on_success. -/
def CircuitBreaker.on_success (cb : CircuitBreaker) : CircuitBreaker :=
  if cb.state_var = BreakerState.half_open then
    { cb with state_var := BreakerState.closed, failure_count := 0 }
  else cb

/-- CircuitBreaker._on_failure. -/
def CircuitBreaker.on_failure (cb : CircuitBreaker) (now : Int) : CircuitBreaker :=
  let cb1 := { cb with failure_count := cb.failure_count + 1, last_failure_time := some now }
  if cb1.failure_count ≥ cb1.failure_threshold then
    { cb1 with state_var := BreakerState.open_ }
  else cb1

/-- What CircuitBreaker.call / async_call produces. -/
inductive CallResult (E A : Type) where
  | ok (a : A)
  | err (e : E)
  | breakerOpen
deriving Repr, DecidableEq

/-- CircuitBreaker.call: outcome is what the wrapped func would do if
invoked; the Bool records whether func was actually invoked. -/
def CircuitBreaker.call (cb : CircuitBreaker) (now : Int)
    (outcome : Except E A) : CallResult E A × Bool × CircuitBreaker :=
  let read := cb.readState now
  if read.1 = BreakerState.open_ then
    (CallResult.breakerOpen, false, read.2)
  else
    match outcome with
    | Except.ok a => (CallResult.ok a, true, read.2.on_success)
    | Except.error e => (CallResult.err e, true, read.2.on_failure now)

/-- Consecutive failing calls at the given timestamps. -/
def CircuitBreaker.applyFailures (cb : CircuitBreaker) (times : List Int) : CircuitBreaker :=
  times.foldl (fun st t => (st.call t (Except.error () : Except Unit Unit)).2.2) cb

/-- A success/failure call sequence, all issued at timestamp 0. -/
def CircuitBreaker.runCallsAt0 (cb : CircuitBreaker) (outcomes : List Bool) : CircuitBreaker :=
  outcomes.foldl
    (fun st b =>
      (st.call 0 (if b then Except.ok () else Except.error () : Except Unit Unit)).2.2) cb

/-! ### RetryManager — src/utils/retry.py -/

/-- RetryManager configuration. -/
structure RetryManager where
  max_attempts : Nat
  delay : ℚ
  backoff : ℚ
deriving Repr, DecidableEq

/-- Observable outcome of RetryManager.execute: the returned value or
re-raised exception (error none is Python re-raising last_exception
while it is still None), how many times func was invoked, the backoff
sleeps in order, and the attempt count carried by the final
'All n attempts failed' error log on exhaustion. -/
structure RetryRun (E A : Type) where
  result : Except (Option E) A
  invocations : Nat
  sleeps : List ℚ
  exhaustLog : Option Nat
deriving Repr

/-- The 'for attempt in range(max_attempts)' loop of
RetryManager.execute; op gives each attempt's outcome, fuel is the
number of iterations left. -/
def retryFrom (m : RetryManager) (op : Nat → Except E A) :
    Nat → Nat → RetryRun E A
  | _, 0 => ⟨Except.error none, 0, [], none⟩
  | attempt, fuel + 1 =>
    match op attempt with
    | Except.ok v => ⟨Except.ok v, 1, [], none⟩
    | Except.error e =>
      if attempt < m.max_attempts - 1 then
        let r := retryFrom m op (attempt + 1) fuel
        ⟨r.result, r.invocations + 1, (m.delay * m.backoff ^ attempt) :: r.sleeps, r.exhaustLog⟩
      else
        ⟨Except.error (some e), 1, [], some m.max_attempts⟩

/-- RetryManager.execute. -/
def RetryManager.execute (m : RetryManager) (op : Nat → Except E A) : RetryRun E A :=
  retryFrom m op 0 m.max_attempts

/-! ### RateLimiter — src/utils/rate_limiter.py -/

/-- Token-bucket RateLimiter state, in exact rational arithmetic. -/
structure RateLimiter where
  rate : ℚ
  per : ℚ
  allowance : ℚ
  last_check : ℚ
deriving Repr, DecidableEq

/-- RateLimiter.__init__ at monotonic time t0. -/
def RateLimiter.mkInit (rate per t0 : ℚ) : RateLimiter :=
  ⟨rate, per, rate, t0⟩

/-- RateLimiter.acquire entered at monotonic time now; returns the new
state and the time at which the call completes (after its sleep, which
happens while the lock is held).  last_check is assigned before the
sleep, exactly as in the source. -/
def RateLimiter.acquire (rl : RateLimiter) (now : ℚ) (tokens : ℚ) : RateLimiter × ℚ :=
  let time_passed := now - rl.last_check
  let a1 := rl.allowance + time_passed * (rl.rate / rl.per)
  let a2 := if a1 > rl.rate then rl.rate else a1
  if a2 < tokens then
    let sleep_time := (tokens - a2) * (rl.per / rl.rate)
    ({ rl with allowance := tokens - tokens, last_check := now }, now + sleep_time)
  else
    ({ rl with allowance := a2 - tokens, last_check := now }, now)

/-! ### Batch orchestrator resume and progress persistence —
src/application/batch_orchestrator.py -/

/-- MultiChannelProcessor._process_channels_concurrent builds one
_process_single_channel_wrapped task per element of channel_inputs. -/
def MultiChannelProcessor.spawnedWorkers (channel_inputs : List String) : List String :=
  channel_inputs

/-- The channels that get a worker in
BatchChannelOrchestrator.process_channels: when the multi-channel
processor attribute exists (it is set by setup()), the whole input list
is handed to process_channels_batch; only the fallback branch filters
out _processed_channels. -/
def BatchChannelOrchestrator.process_channels_workers (has_processor : Bool)
    (processed_channels : List String) (channel_inputs : List String) : List String :=
  if has_processor then
    MultiChannelProcessor.spawnedWorkers channel_inputs
  else
    channel_inputs.filter (fun c => !(processed_channels.contains c))

/-- The inputs given a fresh ChannelProgress at the top of
process_channels: every input not in _processed_channels. -/
def BatchChannelOrchestrator.initializedProgress (processed_channels : List String)
    (channel_inputs : List String) : List String :=
  channel_inputs.filter (fun c => !(processed_channels.contains c))

/-- A successfully json.load-ed progress file; a channel_progress entry
is none when ChannelProgress(**progress_data) raises a validation error. -/
structure ProgressFileData where
  processed_channels : List String
  channel_progress : List (String × Option ChannelProgress)
deriving Repr, DecidableEq

/-- The orchestrator progress state touched by _load_progress. -/
structure OrchestratorProgress where
  processed : List String
  channel_progress : List (String × ChannelProgress)
deriving Repr, DecidableEq

/-- The empty progress state a fresh orchestrator starts from. -/
def OrchestratorProgress.empty : OrchestratorProgress :=
  ⟨[], []⟩

/-- The restore loop of _load_progress: entries are rebuilt in order
until the first invalid one, whose exception aborts the loop (and is
then swallowed by the except block). -/
def restoreEntries : List (String × Option ChannelProgress) → List (String × ChannelProgress)
  | [] => []
  | (k, some p) :: rest => (k, p) :: restoreEntries rest
  | (_, none) :: _ => []

/-- BatchChannelOrchestrator._load_progress: parsed is none when
json.load raises (corrupt or unreadable JSON); every exception is
caught and logged, so the function always returns a state. -/
def BatchChannelOrchestrator.load_progress (file_exists : Bool)
    (parsed : Option ProgressFileData) : OrchestratorProgress :=
  if !file_exists then
    OrchestratorProgress.empty
  else
    match parsed with
    | none => OrchestratorProgress.empty
    | some d => ⟨d.processed_channels, restoreEntries d.channel_progress⟩

/-! ## Theorems

### C1 — QuotaTracker.consume_quota -/

theorem consume_quota_daily_limit (q : QuotaTracker) (op : String)
    (cost : Option Nat) (rd : Bool) :
    ((q.consume_quota op cost rd).2).daily_limit = q.daily_limit := by
  simp only [QuotaTracker.consume_quota, QuotaTracker.resetQuota]
  split <;> split <;> rfl

theorem consume_quota_used_le (q : QuotaTracker) (op : String)
    (cost : Option Nat) (rd : Bool) (h : q.used_quota ≤ q.daily_limit) :
    ((q.consume_quota op cost rd).2).used_quota ≤ ((q.consume_quota op cost rd).2).daily_limit := by
  simp only [QuotaTracker.consume_quota, QuotaTracker.resetQuota]
  split <;> split <;> simp_all

theorem runCalls_daily_limit (calls : List QuotaCall) (q : QuotaTracker) :
    (q.runCalls calls).daily_limit = q.daily_limit := by
  induction calls generalizing q with
  | nil => rfl
  | cons c rest ih =>
    simp only [QuotaTracker.runCalls, List.foldl_cons] at *
    rw [ih, consume_quota_daily_limit]

theorem runCalls_used_le (calls : List QuotaCall) (q : QuotaTracker)
    (h : q.used_quota ≤ q.daily_limit) :
    (q.runCalls calls).used_quota ≤ (q.runCalls calls).daily_limit := by
  induction calls generalizing q with
  | nil => exact h
  | cons c rest ih =>
    simp only [QuotaTracker.runCalls, List.foldl_cons] at *
    exact ih _ (consume_quota_used_le q c.op c.cost c.resetDue h)

theorem consume_quota_at (q : QuotaTracker) (op : String) (cost : Option Nat) :
    ((q.consume_quota op cost false).1 = false ↔
        q.used_quota + operationCost op cost > q.daily_limit)
    ∧ ((q.consume_quota op cost false).1 = false → (q.consume_quota op cost false).2 = q)
    ∧ ((q.consume_quota op cost false).1 = true →
        (q.consume_quota op cost false).2.used_quota = q.used_quota + operationCost op cost
        ∧ (q.consume_quota op cost false).2.operation_history
            = bumpHistory q.operation_history op) := by
  simp only [QuotaTracker.consume_quota, Bool.false_eq_true, if_false]
  split
  · next h => simpa using h
  · next h => simp at h ⊢; omega

/-- C1: starting from used_quota = 0, no sequence of consume_quota calls
drives used_quota past daily_limit; a call returns false exactly when
used_quota + cost > daily_limit (cost being the Python expression
'cost or QUOTA_COSTS.get(op, 1)'); a false return leaves used_quota and
operation_history untouched (no partial debit), and a true return adds
exactly the cost to used_quota. -/
theorem consume_quota_correct (limit k : Nat) (calls : List QuotaCall)
    (op : String) (cost : Option Nat) :
    ((QuotaTracker.init limit).runCalls (calls.take k)).used_quota ≤ limit
    ∧ ((((QuotaTracker.init limit).runCalls calls).consume_quota op cost false).1 = false
        ↔ ((QuotaTracker.init limit).runCalls calls).used_quota + operationCost op cost > limit)
    ∧ ((((QuotaTracker.init limit).runCalls calls).consume_quota op cost false).1 = false →
        (((QuotaTracker.init limit).runCalls calls).consume_quota op cost false).2
          = (QuotaTracker.init limit).runCalls calls)
    ∧ ((((QuotaTracker.init limit).runCalls calls).consume_quota op cost false).1 = true →
        (((QuotaTracker.init limit).runCalls calls).consume_quota op cost false).2.used_quota
          = ((QuotaTracker.init limit).runCalls calls).used_quota + operationCost op cost
        ∧ (((QuotaTracker.init limit).runCalls calls).consume_quota op cost false).2.operation_history
          = bumpHistory ((QuotaTracker.init limit).runCalls calls).operation_history op) := by
  have hdl : ((QuotaTracker.init limit).runCalls calls).daily_limit = limit :=
    runCalls_daily_limit calls _
  have hdl' : ((QuotaTracker.init limit).runCalls (calls.take k)).daily_limit = limit :=
    runCalls_daily_limit _ _
  have hle := runCalls_used_le (calls.take k) (QuotaTracker.init limit) (by simp [QuotaTracker.init])
  have hat := consume_quota_at ((QuotaTracker.init limit).runCalls calls) op cost
  refine ⟨by rw [hdl'] at hle; exact hle, ?_, hat.2.1, hat.2.2⟩
  have h1 := hat.1
  rw [hdl] at h1
  exact h1

/-! ### C7 — ProcessingQueue.get_next_batch -/

theorem runBatches_spec (k : Nat) :
    ∀ (cid : String) (ids : List String) (c b : Nat), c ≤ ids.length →
    ((ProcessingQueue.mk cid ids c b).runBatches k).2
        = ProcessingQueue.mk cid ids (min (c + k * b) ids.length) b
    ∧ ((ProcessingQueue.mk cid ids c b).runBatches k).1.flatten
        = (ids.drop c).take (min (c + k * b) ids.length - c) := by
  induction k with
  | zero =>
    intro cid ids c b h
    constructor
    · simp only [ProcessingQueue.runBatches, Nat.zero_mul, Nat.add_zero,
        ProcessingQueue.mk.injEq, true_and, and_true]
      omega
    · simp only [ProcessingQueue.runBatches, Nat.zero_mul, Nat.add_zero, List.flatten_nil]
      rw [show min c ids.length - c = 0 by omega, List.take_zero]
  | succ k ih =>
    intro cid ids c b h
    have step : (ProcessingQueue.mk cid ids c b).get_next_batch
        = ((ids.drop c).take (min (c + b) ids.length - c),
           ProcessingQueue.mk cid ids (min (c + b) ids.length) b) := rfl
    obtain ⟨ih2, ih1⟩ := ih cid ids (min (c + b) ids.length) b (Nat.min_le_right _ _)
    constructor
    · simp only [ProcessingQueue.runBatches, step, ih2, ProcessingQueue.mk.injEq,
        true_and, and_true]
      rw [Nat.succ_mul]
      omega
    · simp only [ProcessingQueue.runBatches, step, List.flatten_cons, ih1]
      have hdd : ids.drop (min (c + b) ids.length)
          = (ids.drop c).drop (min (c + b) ids.length - c) := by
        rw [List.drop_drop]
        congr 1
        omega
      rw [hdd, ← List.take_add]
      congr 1
      rw [Nat.succ_mul]
      omega

/-- C7: from a fresh queue over n ids with batch size b ≥ 1, the
concatenation of the batches returned by k get_next_batch calls is
exactly the prefix of length min(k·b, n) of the id list (so slices are
disjoint and no position is returned twice); each single call returns
the slice [cursor, cursor+b) clipped to n and advances the cursor by
the returned slice's length; the cursor equals n after exactly
ceil(n/b) calls and not before; and is_complete holds exactly when the
cursor has reached n. -/
theorem queue_next_batch_correct (cid : String) (ids : List String) (b : Nat)
    (hb : 1 ≤ b) :
    (∀ k, ((ProcessingQueue.mk cid ids 0 b).runBatches k).1.flatten
            = ids.take (min (k * b) ids.length)
        ∧ ((ProcessingQueue.mk cid ids 0 b).runBatches k).2.current_index
            = min (k * b) ids.length)
    ∧ (∀ q : ProcessingQueue, q.current_index ≤ q.video_ids.length →
        q.get_next_batch.1 = (q.video_ids.drop q.current_index).take
            (min (q.current_index + q.batch_size) q.video_ids.length - q.current_index)
        ∧ q.get_next_batch.2.current_index = q.current_index + q.get_next_batch.1.length)
    ∧ ((ProcessingQueue.mk cid ids 0 b).runBatches
          ((ids.length + b - 1) / b)).2.current_index = ids.length
    ∧ (∀ k, k < (ids.length + b - 1) / b →
        ((ProcessingQueue.mk cid ids 0 b).runBatches k).2.current_index < ids.length)
    ∧ (∀ q : ProcessingQueue,
        q.is_complete = true ↔ q.video_ids.length ≤ q.current_index) := by
  have hrun : ∀ k, ((ProcessingQueue.mk cid ids 0 b).runBatches k).2
        = ProcessingQueue.mk cid ids (min (k * b) ids.length) b
      ∧ ((ProcessingQueue.mk cid ids 0 b).runBatches k).1.flatten
        = ids.take (min (k * b) ids.length) := by
    intro k
    obtain ⟨h2, h1⟩ := runBatches_spec k cid ids 0 b (Nat.zero_le _)
    rw [Nat.zero_add] at h2 h1
    refine ⟨h2, ?_⟩
    rw [h1, List.drop_zero, Nat.sub_zero]
  have hceil : ids.length ≤ ((ids.length + b - 1) / b) * b := by
    have hdm := Nat.div_add_mod (ids.length + b - 1) b
    have hmod : (ids.length + b - 1) % b < b := Nat.mod_lt _ (by omega)
    have hco : b * ((ids.length + b - 1) / b) = ((ids.length + b - 1) / b) * b :=
      Nat.mul_comm _ _
    omega
  have hlt : ∀ k, k < (ids.length + b - 1) / b → k * b < ids.length := by
    intro k hk
    have h1 : k * b ≤ ((ids.length + b - 1) / b - 1) * b :=
      Nat.mul_le_mul_right b (by omega)
    have hq1 : 1 ≤ (ids.length + b - 1) / b := by omega
    have h2 : ((ids.length + b - 1) / b - 1) * b + b = ((ids.length + b - 1) / b) * b := by
      conv_rhs => rw [← Nat.sub_add_cancel hq1]
      rw [Nat.succ_mul]
    have hdm := Nat.div_add_mod (ids.length + b - 1) b
    have hmod : (ids.length + b - 1) % b < b := Nat.mod_lt _ (by omega)
    have hco : b * ((ids.length + b - 1) / b) = ((ids.length + b - 1) / b) * b :=
      Nat.mul_comm _ _
    omega
  refine ⟨fun k => ⟨(hrun k).2, by rw [(hrun k).1]⟩, ?_, ?_, ?_, ?_⟩
  · intro q hq
    refine ⟨rfl, ?_⟩
    show min (q.current_index + q.batch_size) q.video_ids.length = _
    rw [show q.get_next_batch.1
        = (q.video_ids.drop q.current_index).take
            (min (q.current_index + q.batch_size) q.video_ids.length - q.current_index)
      from rfl]
    rw [List.length_take, List.length_drop]
    omega
  · rw [(hrun _).1]
    show min _ _ = _
    omega
  · intro k hk
    rw [(hrun k).1]
    show min _ _ < _
    have := hlt k hk
    omega
  · intro q
    simp [ProcessingQueue.is_complete]

/-- C7 witness: the theorem at a concrete queue of 5 ids with batch
size 2, and its per-call part at a concrete mid-queue cursor. -/
theorem queue_next_batch_correct_witness :
    ((1 : Nat) ≤ 2)
    ∧ ((ProcessingQueue.mk "ch" ["a", "b", "c", "d", "e"] 0 2).runBatches 3).1.flatten
        = ["a", "b", "c", "d", "e"].take (min (3 * 2) 5)
    ∧ ((ProcessingQueue.mk "ch" ["a", "b", "c", "d", "e"] 0 2).runBatches
          ((5 + 2 - 1) / 2)).2.current_index = 5 := by
  have h := queue_next_batch_correct "ch" ["a", "b", "c", "d", "e"] 2 (by decide)
  exact ⟨by decide, (h.1 3).1, h.2.2.1⟩

/-! ### C6 — ChannelProgress.update_progress invariant -/

theorem countSucceeded_add_countFailed (us : List (String × Bool)) :
    countSucceeded us + countFailed us = us.length := by
  induction us with
  | nil => rfl
  | cons u rest ih =>
    rcases u with ⟨vid, s⟩
    cases s <;>
      simp [countSucceeded, countFailed, List.filter_cons] at * <;>
      omega

theorem runUpdates_spec (us : List (String × Bool)) (p : ChannelProgress) :
    (p.runUpdates us).processed_videos = p.processed_videos + us.length
    ∧ (p.runUpdates us).successful_videos = p.successful_videos + countSucceeded us
    ∧ (p.runUpdates us).failed_videos = p.failed_videos + countFailed us
    ∧ (p.runUpdates us).total_videos = p.total_videos
    ∧ (p.runUpdates us).status = p.status
    ∧ (p.runUpdates us).channel_id = p.channel_id := by
  induction us generalizing p with
  | nil => simp [ChannelProgress.runUpdates, countSucceeded, countFailed]
  | cons u rest ih =>
    rcases u with ⟨vid, s⟩
    simp only [ChannelProgress.runUpdates, List.foldl_cons] at *
    obtain ⟨h1, h2, h3, h4, h5, h6⟩ := ih (p.update_progress s vid)
    cases s <;>
      simp [ChannelProgress.update_progress, countSucceeded, countFailed,
        List.filter_cons] at h1 h2 h3 h4 h5 h6 ⊢ <;>
      refine ⟨by omega, by omega, by omega, h4, h5, h6⟩

/-- C6: from a fresh ChannelProgress over a queue of total items, any
sequence of at most total update_progress calls keeps
processed == successful + failed and processed ≤ total at every
intermediate state (ChannelProgress has no skip counter: items skipped
by filter_videos are removed before total_videos is set, so the skipped
contribution is identically zero). -/
theorem update_progress_invariant (cid : String) (total k : Nat)
    (updates : List (String × Bool)) (h : updates.length ≤ total) :
    ((ChannelProgress.mk cid ChannelStatus.pending 0 0 0 total none none 0).runUpdates
        (updates.take k)).processed_videos
      = ((ChannelProgress.mk cid ChannelStatus.pending 0 0 0 total none none 0).runUpdates
          (updates.take k)).successful_videos
        + ((ChannelProgress.mk cid ChannelStatus.pending 0 0 0 total none none 0).runUpdates
            (updates.take k)).failed_videos
    ∧ ((ChannelProgress.mk cid ChannelStatus.pending 0 0 0 total none none 0).runUpdates
        (updates.take k)).processed_videos
      ≤ ((ChannelProgress.mk cid ChannelStatus.pending 0 0 0 total none none 0).runUpdates
          (updates.take k)).total_videos := by
  obtain ⟨h1, h2, h3, h4, _, _⟩ :=
    runUpdates_spec (updates.take k)
      (ChannelProgress.mk cid ChannelStatus.pending 0 0 0 total none none 0)
  have hsplit := countSucceeded_add_countFailed (updates.take k)
  have hlen : (updates.take k).length ≤ total := by
    rw [List.length_take]
    omega
  have h1' := h1.trans (Nat.zero_add _)
  have h2' := h2.trans (Nat.zero_add _)
  have h3' := h3.trans (Nat.zero_add _)
  have h4' : ((ChannelProgress.mk cid ChannelStatus.pending 0 0 0 total none none 0).runUpdates
      (updates.take k)).total_videos = total := h4
  exact ⟨by omega, by omega⟩

/-- C6 witness: three of five items processed, invariant holds. -/
theorem update_progress_invariant_witness :
    ([("v1", true), ("v2", false), ("v3", true)] : List (String × Bool)).length ≤ 5
    ∧ ((ChannelProgress.mk "ch" ChannelStatus.pending 0 0 0 5 none none 0).runUpdates
          (([("v1", true), ("v2", false), ("v3", true)] : List (String × Bool)).take 2)).processed_videos
        = ((ChannelProgress.mk "ch" ChannelStatus.pending 0 0 0 5 none none 0).runUpdates
            (([("v1", true), ("v2", false), ("v3", true)] : List (String × Bool)).take 2)).successful_videos
          + ((ChannelProgress.mk "ch" ChannelStatus.pending 0 0 0 5 none none 0).runUpdates
              (([("v1", true), ("v2", false), ("v3", true)] : List (String × Bool)).take 2)).failed_videos := by
  have h := update_progress_invariant "ch" 5 2
      [("v1", true), ("v2", false), ("v3", true)] (by decide)
  exact ⟨by decide, h.1⟩

/-! ### C5 — channel terminal status -/

/-- C5: with collaborator resolution succeeding, a channel whose queue
runs to completion ends completed exactly when no item failed, and ends
partial when at least one item failed and at least one succeeded; an
exception during metadata or item-list resolution marks the channel
failed; and item failures alone never produce status failed. -/
theorem channel_terminal_status (cid e : String) (videos : List (String × Bool))
    (vr : Except String (List (String × Bool))) :
    (countFailed videos = 0 →
        (processSingleChannel cid (Except.ok ()) (Except.ok videos)).status
          = ChannelStatus.completed)
    ∧ (1 ≤ countFailed videos → 1 ≤ countSucceeded videos →
        (processSingleChannel cid (Except.ok ()) (Except.ok videos)).status
          = ChannelStatus.partial_)
    ∧ (processSingleChannel cid (Except.error e) vr).status = ChannelStatus.failed
    ∧ (processSingleChannel cid (Except.ok ()) (Except.error e)).status = ChannelStatus.failed
    ∧ (processSingleChannel cid (Except.ok ()) (Except.ok videos)).status
        ≠ ChannelStatus.failed := by
  have hfail : ∀ (v : String × Bool) (rest : List (String × Bool)),
      (processSingleChannel cid (Except.ok ()) (Except.ok (v :: rest))).status
        = (if countFailed (v :: rest) = 0 then ChannelStatus.completed
           else ChannelStatus.partial_) := by
    intro v rest
    have key : processSingleChannel cid (Except.ok ()) (Except.ok (v :: rest))
        = (if ((ChannelProgress.mk cid ChannelStatus.processing 0 0 0 (v :: rest).length
                  none none 0).runUpdates (v :: rest)).failed_videos = 0
           then { (ChannelProgress.mk cid ChannelStatus.processing 0 0 0 (v :: rest).length
                    none none 0).runUpdates (v :: rest) with status := ChannelStatus.completed }
           else { (ChannelProgress.mk cid ChannelStatus.processing 0 0 0 (v :: rest).length
                    none none 0).runUpdates (v :: rest) with
                    status := ChannelStatus.partial_ }) := rfl
    obtain ⟨_, _, h3, _, _, _⟩ := runUpdates_spec (v :: rest)
      (ChannelProgress.mk cid ChannelStatus.processing 0 0 0 (v :: rest).length none none 0)
    have h3' : ((ChannelProgress.mk cid ChannelStatus.processing 0 0 0 (v :: rest).length
        none none 0).runUpdates (v :: rest)).failed_videos = countFailed (v :: rest) :=
      h3.trans (Nat.zero_add _)
    rw [key]
    by_cases hf : countFailed (v :: rest) = 0
    · rw [if_pos hf, if_pos (h3'.trans hf)]
    · rw [if_neg hf, if_neg (fun hc => hf (h3'.symm.trans hc))]
  refine ⟨?_, ?_, ?_, rfl, ?_⟩
  · intro h0
    rcases videos with _ | ⟨v, rest⟩
    · rfl
    · rw [hfail v rest, if_pos h0]
  · intro h1 _
    rcases videos with _ | ⟨v, rest⟩
    · simp [countFailed] at h1
    · rw [hfail v rest, if_neg (by omega)]
  · cases vr <;> rfl
  · rcases videos with _ | ⟨v, rest⟩
    · intro hcon
      exact absurd hcon (by simp [processSingleChannel])
    · rw [hfail v rest]
      split <;> simp

/-- C5 witness: a two-item channel with one failure ends partial; a
metadata error ends failed. -/
theorem channel_terminal_status_witness :
    (1 ≤ countFailed [("v1", false), ("v2", true)]
      ∧ 1 ≤ countSucceeded [("v1", false), ("v2", true)])
    ∧ (processSingleChannel "ch" (Except.ok ())
        (Except.ok [("v1", false), ("v2", true)])).status = ChannelStatus.partial_
    ∧ (processSingleChannel "ch" (Except.error "not found")
        (Except.ok [])).status = ChannelStatus.failed := by
  have h := channel_terminal_status "ch" "not found" [("v1", false), ("v2", true)]
      (Except.ok [])
  exact ⟨⟨by decide, by decide⟩, h.2.1 (by decide) (by decide),
    (channel_terminal_status "ch" "not found" [] (Except.ok [])).2.2.1⟩

/-! ### C2 — resume skip in process_channels -/

/-- C2 (divergence witness): with the multi-channel processor configured
— which setup() always does — process_channels hands every input,
including already-processed UC_A, to process_channels_batch, which
spawns one worker per input; the skip filter runs only in the fallback
branch.  The fresh-progress initialization does skip UC_A. -/
theorem resume_skip_divergence :
    BatchChannelOrchestrator.process_channels_workers true ["UC_A"] ["UC_A", "UC_B"]
      = ["UC_A", "UC_B"]
    ∧ BatchChannelOrchestrator.process_channels_workers false ["UC_A"] ["UC_A", "UC_B"]
      = ["UC_B"]
    ∧ BatchChannelOrchestrator.initializedProgress ["UC_A"] ["UC_A", "UC_B"] = ["UC_B"] := by
  exact ⟨rfl, by decide, by decide⟩

/-! ### C8 — corrupt progress file -/

/-- C8: a progress file whose JSON fails to parse loads as the empty
progress state — no processed channels, no restored per-channel
progress — without raising (the except block swallows the error), and
is indistinguishable from starting with no progress file at all. -/
theorem load_progress_corrupt_json (d : Option ProgressFileData) :
    BatchChannelOrchestrator.load_progress true none = OrchestratorProgress.empty
    ∧ BatchChannelOrchestrator.load_progress true none
        = BatchChannelOrchestrator.load_progress false d := by
  exact ⟨rfl, rfl⟩

/-! ### C3 and C10 — CircuitBreaker -/

theorem call_closed_ok (cb : CircuitBreaker) (now : Int) (a : A)
    (h : cb.state_var = BreakerState.closed) :
    cb.call now (Except.ok a : Except E A) = (CallResult.ok a, true, cb) := by
  simp [CircuitBreaker.call, CircuitBreaker.readState, CircuitBreaker.on_success, h]

theorem call_closed_err (cb : CircuitBreaker) (now : Int) (e : E)
    (h : cb.state_var = BreakerState.closed) :
    cb.call now (Except.error e : Except E A)
      = (CallResult.err e, true, cb.on_failure now) := by
  simp [CircuitBreaker.call, CircuitBreaker.readState, h]

theorem call_halfopen_ok (cb : CircuitBreaker) (now : Int) (a : A)
    (h : cb.state_var = BreakerState.half_open) :
    cb.call now (Except.ok a : Except E A)
      = (CallResult.ok a, true,
         { cb with state_var := BreakerState.closed, failure_count := 0 }) := by
  simp [CircuitBreaker.call, CircuitBreaker.readState, CircuitBreaker.on_success, h]

theorem call_open_recent (cb : CircuitBreaker) (t now : Int) (outcome : Except E A)
    (h : cb.state_var = BreakerState.open_) (ht : cb.last_failure_time = some t)
    (hnow : now - t ≤ cb.recovery_timeout) :
    cb.call now outcome = (CallResult.breakerOpen, false, cb) := by
  have hr : cb.readState now = (BreakerState.open_, cb) := by
    simp [CircuitBreaker.readState, h, ht]
    omega
  simp [CircuitBreaker.call, hr]

theorem readState_becomes_halfopen (cb : CircuitBreaker) (t now : Int)
    (h : cb.state_var = BreakerState.open_) (ht : cb.last_failure_time = some t)
    (hnow : now - t > cb.recovery_timeout) :
    cb.readState now
      = (BreakerState.half_open, { cb with state_var := BreakerState.half_open }) := by
  simp [CircuitBreaker.readState, h, ht]
  omega

theorem applyFailures_opens (times : List Int) :
    ∀ cb : CircuitBreaker, cb.state_var = BreakerState.closed →
    cb.failure_count + times.length = cb.failure_threshold → times ≠ [] →
    ((cb.applyFailures times).state_var = BreakerState.open_
      ∧ (cb.applyFailures times).failure_count = cb.failure_threshold) := by
  induction times with
  | nil => intro cb _ _ hne; exact absurd rfl hne
  | cons t rest ih =>
    intro cb hclosed hcount _
    have hstep : cb.applyFailures (t :: rest)
        = (cb.on_failure t).applyFailures rest := by
      simp [CircuitBreaker.applyFailures, call_closed_err cb t () hclosed]
    rw [hstep]
    rcases rest with _ | ⟨r, rs⟩
    · have hth : cb.failure_count + 1 = cb.failure_threshold := by
        simpa using hcount
      have hof : cb.on_failure t
          = { cb with failure_count := cb.failure_count + 1,
                      last_failure_time := some t,
                      state_var := BreakerState.open_ } := by
        simp [CircuitBreaker.on_failure]
        omega
      rw [hof]
      exact ⟨rfl, by simpa using hth⟩
    · have hlt : cb.failure_count + 1 < cb.failure_threshold := by
        simp at hcount
        omega
      have hof : cb.on_failure t
          = { cb with failure_count := cb.failure_count + 1,
                      last_failure_time := some t } := by
        simp [CircuitBreaker.on_failure]
        omega
      rw [hof]
      have := ih { cb with failure_count := cb.failure_count + 1,
                           last_failure_time := some t }
        (by simpa using hclosed) (by simp at hcount ⊢; omega) (by simp)
      simpa using this

/-- C3 counterexample: a breaker that opened at time 0 with
recovery_timeout = 60, read at time 60 — recovery_timeout has exactly
elapsed — stays open instead of moving to half_open, because the lazy
transition requires now - last_failure_time > recovery_timeout. -/
theorem breaker_timeout_boundary_counterexample :
    (60 : Int) - 0
        ≥ (CircuitBreaker.mk "api" 3 60 3 (some 0) BreakerState.open_).recovery_timeout
    ∧ ((CircuitBreaker.mk "api" 3 60 3 (some 0) BreakerState.open_).readState 60).1
        = BreakerState.open_
    ∧ ((CircuitBreaker.mk "api" 3 60 3 (some 0) BreakerState.open_).readState 60).1
        ≠ BreakerState.half_open := by
  refine ⟨by decide, rfl, by decide⟩

/-- C3 (amended): threshold consecutive failures from a fresh breaker
open it; every call made while open with at most recovery_timeout
elapsed since the last failure raises the breaker-open error without
invoking the wrapped operation and changes nothing; once STRICTLY MORE
than recovery_timeout has elapsed the next state read moves it to
half_open; and a success while half_open closes it with failure_count
reset to 0. -/
theorem circuit_breaker_state_machine (name : String) (threshold : Nat) (timeout : Int)
    (hth : 1 ≤ threshold) :
    (∀ times : List Int, times.length = threshold →
        ((CircuitBreaker.init name threshold timeout).applyFailures times).state_var
          = BreakerState.open_)
    ∧ (∀ (cb : CircuitBreaker) (t now : Int) (outcome : Except Unit Unit),
        cb.state_var = BreakerState.open_ → cb.last_failure_time = some t →
        now - t ≤ cb.recovery_timeout →
        cb.call now outcome = (CallResult.breakerOpen, false, cb))
    ∧ (∀ (cb : CircuitBreaker) (t now : Int),
        cb.state_var = BreakerState.open_ → cb.last_failure_time = some t →
        now - t > cb.recovery_timeout →
        cb.readState now
          = (BreakerState.half_open, { cb with state_var := BreakerState.half_open }))
    ∧ (∀ (cb : CircuitBreaker) (now : Int),
        cb.state_var = BreakerState.half_open →
        cb.call now (Except.ok () : Except Unit Unit)
          = (CallResult.ok (), true,
             { cb with state_var := BreakerState.closed, failure_count := 0 })) := by
  refine ⟨?_, ?_, ?_, ?_⟩
  · intro times hlen
    exact (applyFailures_opens times (CircuitBreaker.init name threshold timeout) rfl
      (by simpa [CircuitBreaker.init] using hlen)
      (by intro hnil; rw [hnil] at hlen; simp at hlen; omega)).1
  · intro cb t now outcome h ht hnow
    exact call_open_recent cb t now outcome h ht hnow
  · intro cb t now h ht hnow
    exact readState_becomes_halfopen cb t now h ht hnow
  · intro cb now h
    exact call_halfopen_ok cb now () h

/-- C3 witness: threshold 3, timeout 60; three consecutive failures at
times 0, 1, 2 open the fresh breaker, and a success at half_open closes
it with the counter reset. -/
theorem circuit_breaker_state_machine_witness :
    (1 ≤ 3)
    ∧ ((CircuitBreaker.init "api" 3 60).applyFailures [0, 1, 2]).state_var
        = BreakerState.open_
    ∧ (CircuitBreaker.mk "api" 3 60 5 (some 0) BreakerState.half_open).call 10
          (Except.ok () : Except Unit Unit)
        = (CallResult.ok (), true,
           CircuitBreaker.mk "api" 3 60 0 (some 0) BreakerState.closed) := by
  have h := circuit_breaker_state_machine "api" 3 60 (by decide)
  exact ⟨by decide, h.1 [0, 1, 2] (by decide),
    h.2.2.2 (CircuitBreaker.mk "api" 3 60 5 (some 0) BreakerState.half_open) 10 rfl⟩

theorem runCallsAt0_opens (outcomes : List Bool) :
    ∀ cb : CircuitBreaker, 0 ≤ cb.recovery_timeout →
    ((cb.state_var = BreakerState.closed
        ∧ cb.failure_threshold ≤ cb.failure_count + (outcomes.filter (fun b => !b)).length
        ∧ cb.failure_count < cb.failure_threshold)
      ∨ (cb.state_var = BreakerState.open_ ∧ cb.last_failure_time = some 0)) →
    (cb.runCallsAt0 outcomes).state_var = BreakerState.open_ := by
  induction outcomes with
  | nil =>
    intro cb _ hinv
    rcases hinv with ⟨_, hle, hlt⟩ | ⟨ho, _⟩
    · simp at hle
      omega
    · exact ho
  | cons b rest ih =>
    intro cb hto hinv
    rcases hinv with ⟨hc, hle, hlt⟩ | ⟨ho, hl⟩
    · cases b
      · have hstep : cb.runCallsAt0 (false :: rest)
            = (cb.on_failure 0).runCallsAt0 rest := by
          simp [CircuitBreaker.runCallsAt0, call_closed_err cb 0 () hc]
        rw [hstep]
        by_cases hreach : cb.failure_count + 1 ≥ cb.failure_threshold
        · have hof : cb.on_failure 0
              = { cb with failure_count := cb.failure_count + 1,
                          last_failure_time := some 0,
                          state_var := BreakerState.open_ } := by
            simp [CircuitBreaker.on_failure]
            omega
          rw [hof]
          exact ih _ (by simpa using hto) (Or.inr ⟨rfl, rfl⟩)
        · have hof : cb.on_failure 0
              = { cb with failure_count := cb.failure_count + 1,
                          last_failure_time := some 0 } := by
            simp [CircuitBreaker.on_failure]
            omega
          rw [hof]
          refine ih _ (by simpa using hto) (Or.inl ⟨by simpa using hc, ?_, by simp; omega⟩)
          simp at hle ⊢
          omega
      · have hstep : cb.runCallsAt0 (true :: rest) = cb.runCallsAt0 rest := by
          simp [CircuitBreaker.runCallsAt0, call_closed_ok cb 0 () hc]
        rw [hstep]
        refine ih cb hto (Or.inl ⟨hc, ?_, hlt⟩)
        simpa using hle
    · have hstep : cb.runCallsAt0 (b :: rest) = cb.runCallsAt0 rest := by
        simp only [CircuitBreaker.runCallsAt0, List.foldl_cons]
        rw [call_open_recent cb 0 0 _ ho hl (by omega)]
      rw [hstep]
      exact ih cb hto (Or.inr ⟨ho, hl⟩)

/-- C10: a success while the breaker is closed changes nothing —
failure_count is reset only by a success in half_open — so threshold
failures with successes interleaved, all within the recovery window,
still open the breaker. -/
theorem breaker_success_frame (name : String) (threshold : Nat) (timeout : Int)
    (hth : 1 ≤ threshold) (hto : 0 ≤ timeout) :
    (∀ (cb : CircuitBreaker) (now : Int),
        cb.state_var = BreakerState.closed →
        cb.call now (Except.ok () : Except Unit Unit) = (CallResult.ok (), true, cb))
    ∧ (∀ outcomes : List Bool,
        threshold ≤ (outcomes.filter (fun b => !b)).length →
        ((CircuitBreaker.init name threshold timeout).runCallsAt0 outcomes).state_var
          = BreakerState.open_) := by
  constructor
  · intro cb now h
    exact call_closed_ok cb now () h
  · intro outcomes hcount
    exact runCallsAt0_opens outcomes (CircuitBreaker.init name threshold timeout)
      hto (Or.inl ⟨rfl, by simpa [CircuitBreaker.init] using hcount,
        by simpa [CircuitBreaker.init] using hth⟩)

/-- C10 witness: threshold 2, two failures separated by a success still
open the breaker; a success while closed leaves the breaker unchanged. -/
theorem breaker_success_frame_witness :
    ((1 ≤ 2) ∧ (0 : Int) ≤ 5
      ∧ 2 ≤ (([false, true, false].filter (fun b => !b)).length))
    ∧ ((CircuitBreaker.init "api" 2 5).runCallsAt0 [false, true, false]).state_var
        = BreakerState.open_
    ∧ (CircuitBreaker.mk "api" 2 5 1 (some 0) BreakerState.closed).call 3
          (Except.ok () : Except Unit Unit)
        = (CallResult.ok (), true,
           CircuitBreaker.mk "api" 2 5 1 (some 0) BreakerState.closed) := by
  have h := breaker_success_frame "api" 2 5 (by decide) (by decide)
  exact ⟨⟨by decide, by decide, by decide⟩,
    h.2 [false, true, false] (by decide),
    h.1 (CircuitBreaker.mk "api" 2 5 1 (some 0) BreakerState.closed) 3 rfl⟩

/-! ### C4 — RetryManager.execute -/

theorem retryFrom_step_ok {E A : Type} (m : RetryManager) (op : Nat → Except E A)
    (a f : Nat) (v : A) (hok : op a = Except.ok v) :
    retryFrom m op a (f + 1) = ⟨Except.ok v, 1, [], none⟩ := by
  simp only [retryFrom, hok]

theorem retryFrom_step_err {E A : Type} (m : RetryManager) (op : Nat → Except E A)
    (a f : Nat) (e : E) (hae : op a = Except.error e) (hlt : a < m.max_attempts - 1) :
    retryFrom m op a (f + 1)
      = ⟨(retryFrom m op (a + 1) f).result, (retryFrom m op (a + 1) f).invocations + 1,
         (m.delay * m.backoff ^ a) :: (retryFrom m op (a + 1) f).sleeps,
         (retryFrom m op (a + 1) f).exhaustLog⟩ := by
  simp only [retryFrom, hae]
  rw [if_pos hlt]

theorem retryFrom_step_exhaust {E A : Type} (m : RetryManager) (op : Nat → Except E A)
    (a f : Nat) (e : E) (hae : op a = Except.error e) (hge : ¬ a < m.max_attempts - 1) :
    retryFrom m op a (f + 1)
      = ⟨Except.error (some e), 1, [], some m.max_attempts⟩ := by
  simp only [retryFrom, hae]
  rw [if_neg hge]

theorem retryFrom_all_fail {E A : Type} (m : RetryManager) (op : Nat → Except E A)
    (errs : Nat → E) (hop : ∀ i, i < m.max_attempts → op i = Except.error (errs i)) :
    ∀ fuel a, a + fuel = m.max_attempts → 1 ≤ fuel →
    retryFrom m op a fuel
      = ⟨Except.error (some (errs (m.max_attempts - 1))), fuel,
         (List.range' a (fuel - 1)).map (fun j => m.delay * m.backoff ^ j),
         some m.max_attempts⟩ := by
  intro fuel
  induction fuel with
  | zero => intro a _ h1; omega
  | succ fuel ih =>
    intro a ha _
    have hae : op a = Except.error (errs a) := hop a (by omega)
    rcases fuel with _ | f
    · have haeq : a = m.max_attempts - 1 := by omega
      rw [retryFrom_step_exhaust m op a 0 _ hae (by omega)]
      simp [haeq]
    · have hlt : a < m.max_attempts - 1 := by omega
      rw [retryFrom_step_err m op a (f + 1) _ hae hlt,
        ih (a + 1) (by omega) (by omega)]
      simp [List.range'_succ]

theorem retryFrom_last_ok {E A : Type} (m : RetryManager) (op : Nat → Except E A)
    (errs : Nat → E) (v : A)
    (hop : ∀ i, i < m.max_attempts - 1 → op i = Except.error (errs i))
    (hlast : op (m.max_attempts - 1) = Except.ok v) :
    ∀ fuel a, a + fuel = m.max_attempts → 1 ≤ fuel →
    (retryFrom m op a fuel).result = Except.ok v
      ∧ (retryFrom m op a fuel).invocations = fuel := by
  intro fuel
  induction fuel with
  | zero => intro a _ h1; omega
  | succ fuel ih =>
    intro a ha _
    rcases fuel with _ | f
    · have haeq : a = m.max_attempts - 1 := by omega
      rw [haeq, retryFrom_step_ok m op _ 0 v hlast]
      exact ⟨rfl, rfl⟩
    · have hlt : a < m.max_attempts - 1 := by omega
      have hae : op a = Except.error (errs a) := hop a hlt
      have hrec := ih (a + 1) (by omega) (by omega)
      rw [retryFrom_step_err m op a (f + 1) _ hae hlt]
      exact ⟨hrec.1, by simp [hrec.2]⟩

/-- C4: an operation failing on every attempt is invoked exactly
max_attempts times, the sleep before retry attempt a+1 is
delay·backoff^a, and on exhaustion the last failure is re-raised while
the final error log records the attempt count; an operation failing
max_attempts-1 times then succeeding is invoked exactly max_attempts
times and execute returns its value. -/
theorem retry_execute_spec (E A : Type) (m : RetryManager) (hmax : 1 ≤ m.max_attempts)
    (op1 op2 : Nat → Except E A) (errs : Nat → E) (v : A)
    (hop1 : ∀ i, i < m.max_attempts → op1 i = Except.error (errs i))
    (hop2 : ∀ i, i < m.max_attempts - 1 → op2 i = Except.error (errs i))
    (hlast : op2 (m.max_attempts - 1) = Except.ok v) :
    ((m.execute op1).invocations = m.max_attempts
      ∧ (m.execute op1).sleeps
          = (List.range (m.max_attempts - 1)).map (fun a => m.delay * m.backoff ^ a)
      ∧ (m.execute op1).result = Except.error (some (errs (m.max_attempts - 1)))
      ∧ (m.execute op1).exhaustLog = some m.max_attempts)
    ∧ ((m.execute op2).invocations = m.max_attempts
      ∧ (m.execute op2).result = Except.ok v) := by
  have h1 := retryFrom_all_fail m op1 errs hop1 m.max_attempts 0 (by omega) hmax
  have h2 := retryFrom_last_ok m op2 errs v hop2 hlast m.max_attempts 0 (by omega) hmax
  constructor
  · rw [RetryManager.execute, h1]
    refine ⟨rfl, ?_, rfl, rfl⟩
    rw [List.range_eq_range']
  · exact ⟨h2.2, h2.1⟩

/-- C4 witness: max_attempts 3, delay 1, backoff 2; an always-failing
operation runs 3 times with sleeps 1·2^0 and 1·2^1 and re-raises the
last error; a fail-fail-succeed operation runs 3 times returning 42. -/
theorem retry_execute_spec_witness :
    (1 ≤ (3 : Nat))
    ∧ ((RetryManager.mk 3 1 2).execute
        (fun i => (Except.error i : Except Nat Nat))).invocations = 3
    ∧ ((RetryManager.mk 3 1 2).execute
        (fun i => (Except.error i : Except Nat Nat))).sleeps
        = (List.range 2).map (fun a => (1 : ℚ) * 2 ^ a)
    ∧ ((RetryManager.mk 3 1 2).execute
        (fun i => if i < 2 then Except.error i else Except.ok 42)).result
        = Except.ok 42 := by
  have h := retry_execute_spec Nat Nat (RetryManager.mk 3 1 2) (by decide)
    (fun i => Except.error i)
    (fun i => if i < 2 then Except.error i else Except.ok 42)
    (fun i => i) 42
    (fun i _ => rfl)
    (fun i hi => by
      show (if i < 2 then Except.error i else Except.ok 42) = Except.error i
      rw [if_pos (show i < 2 from hi)])
    (by norm_num)
  exact ⟨by decide, h.1.1, h.1.2.1, h.2.2⟩

/-! ### C9 — RateLimiter.acquire -/

/-- C9 (divergence witness): rate 1 per 1 second, bucket full at t = 0.
Three back-to-back acquire(1) calls — each issued the moment the
previous one completes — finish at times 0, 1 and 1: three
acquisitions complete within wall-clock window t = 1, exceeding the
claimed bound ceil(1·1/1) + burst = 2.  The time slept inside the
second call is credited twice: once by the forced allowance = tokens
assignment, and again by the third call's time_passed, because
last_check was set before the sleep. -/
theorem rate_limiter_double_credit :
    ((RateLimiter.mkInit 1 1 0).acquire 0 1).2 = 0
    ∧ (((RateLimiter.mkInit 1 1 0).acquire 0 1).1.acquire
          ((RateLimiter.mkInit 1 1 0).acquire 0 1).2 1).2 = 1
    ∧ ((((RateLimiter.mkInit 1 1 0).acquire 0 1).1.acquire
          ((RateLimiter.mkInit 1 1 0).acquire 0 1).2 1).1.acquire
        (((RateLimiter.mkInit 1 1 0).acquire 0 1).1.acquire
          ((RateLimiter.mkInit 1 1 0).acquire 0 1).2 1).2 1).2 = 1 := by
  refine ⟨?_, ?_, ?_⟩ <;> norm_num [RateLimiter.mkInit, RateLimiter.acquire]

end YTBatch
